import Mathlib

/-!
Shallow embedding of `scripts/jebio/jebio.py`, a client for the JEB Malware
Sharing Network.  Pure data (JSON values, file contents as byte lists) is
modelled directly; the effectful parts (HTTP, filesystem, zip extraction) are
modelled by threading an explicit `World` state and reading responses from a
`Config` oracle.  Python exceptions are modelled with `Except PyErr`.
-/

set_option autoImplicit false

namespace Jebio

/-- JSON values as decoded by Python's `json`/`requests` (`r.json()`). -/
inductive Json where
  | null : Json
  | bool : Bool → Json
  | num : Int → Json
  | str : String → Json
  | arr : List Json → Json
  | obj : List (String × Json) → Json
deriving Repr

/-- Python exceptions raised by the script.  `raiseStr` models the script's
`raise '<message>'` statements (the "missing credential" / "missing hash"
failures); the remaining constructors model the standard exceptions the
interpreter or the libraries raise. -/
inductive PyErr where
  | raiseStr : String → PyErr
  | keyError : String → PyErr
  | typeError : String → PyErr
  | indexError : PyErr
  | jsonDecodeError : PyErr
  | connectionError : String → PyErr
  | badZipFile : PyErr
deriving Repr, DecidableEq

/-- Python truthiness (`if not r`) of a decoded JSON value:
`None`, `False`, `0`, `''`, `[]` and `{}` are falsy. -/
def pyFalsy : Json → Bool
  | .null => true
  | .bool b => !b
  | .num n => n == 0
  | .str s => s == ""
  | .arr l => l.isEmpty
  | .obj l => l.isEmpty

/-- Python `j == k` for a decoded JSON value against an int literal
(`r['code'] != 0`): numbers compare by value, booleans as 0/1
(`False == 0` is true in Python), every other shape compares unequal. -/
def pyEqInt (j : Json) (k : Int) : Bool :=
  match j with
  | .num n => n == k
  | .bool b => (if b then (1 : Int) else 0) == k
  | _ => false

/-- First-match lookup in a decoded JSON object's field list
(Python dicts have unique keys). -/
def lookupField : List (String × Json) → String → Option Json
  | [], _ => none
  | (k, v) :: rest, key => if k = key then some v else lookupField rest key

/-- Python subscript `r[key]`: `KeyError` on a dict without the key,
`TypeError` when the value is not a dict. -/
def pySubscript (j : Json) (key : String) : Except PyErr Json :=
  match j with
  | .obj fields =>
    match lookupField fields key with
    | some v => Except.ok v
    | none => Except.error (.keyError key)
  | _ => Except.error (.typeError "value is not subscriptable")

/-- Python `r.get(key)` on a dict: `None` when absent. -/
def dictGet (j : Json) (key : String) : Option Json :=
  match j with
  | .obj fields => lookupField fields key
  | _ => none

/-- An HTTP response as seen through `requests`: `ok` is the 2xx status flag
(also the truthiness of the response object), `content` the raw body bytes,
`jsonBody` the result of parsing the body as JSON (`none` = `r.json()` raises). -/
structure HttpResp where
  ok : Bool
  content : List Nat
  jsonBody : Option Json
deriving Repr

/-- The whitespace characters Python's `str.strip()` removes (ASCII range). -/
def isPySpace (c : Char) : Bool :=
  c = ' ' || c = '\t' || c = '\n' || c = '\r' || c = '\x0b' || c = '\x0c'

/-- Python `line.strip()`: drop leading and trailing whitespace. -/
def pyStrip (s : String) : String :=
  String.mk (((s.toList.dropWhile isPySpace).reverse.dropWhile isPySpace).reverse)

/-- Python `line.startswith('#')`. -/
def startsWithHash (s : String) : Bool :=
  match s.toList with
  | [] => false
  | c :: _ => c = '#'

/-- Helper for `pySplitComma`: `acc` holds the current segment reversed. -/
def splitCommaGo : List Char → List Char → List String
  | [], acc => [String.mk acc.reverse]
  | c :: rest, acc =>
    if c = ',' then String.mk acc.reverse :: splitCommaGo rest []
    else splitCommaGo rest (c :: acc)

/-- Python `arg.split(',')` (note `''.split(',') == ['']`). -/
def pySplitComma (s : String) : List String := splitCommaGo s.toList []

/-- ASCII lower-casing of one character (hex digests are ASCII). -/
def asciiLowerChar (c : Char) : Char :=
  if 'A' ≤ c && c ≤ 'Z' then Char.ofNat (c.toNat + 32) else c

/-- Python `s.lower()` restricted to ASCII, as applied to hex digests. -/
def asciiLower (s : String) : String := String.mk (s.toList.map asciiLowerChar)

/-- First-match lookup in an association list keyed by strings
(used for `os.environ` and for the working-directory file table). -/
def alistGet {α : Type} : List (String × α) → String → Option α
  | [], _ => none
  | (k, v) :: rest, key => if k = key then some v else alistGet rest key

/-- The ambient environment the script runs in: `os.environ`, the `APIKEY`
global, the network (URL → response, `Except.error` = connection failure),
the SHA-256 hex digest function (abstract), and the zip decoder
(archive bytes → ordered entry list `(name, content)`, `none` = not a zip). -/
structure Config where
  environ : List (String × String)
  APIKEY : String
  net : String → Except String HttpResp
  sha256hex : List Nat → String
  zip : List Nat → Option (List (String × List Nat))

/-- Mutable world state threaded through the operations: the working
directory's files, the log of GET request URLs issued (in order), and the log
of zip extractions performed as `(archive path, password)` pairs. -/
structure World where
  files : List (String × List Nat)
  reqs : List String
  extractions : List (String × String)
deriving Repr, DecidableEq

/-- Write (create or overwrite) a file. -/
def setFile (files : List (String × List Nat)) (path : String) (content : List Nat) :
    List (String × List Nat) :=
  (path, content) :: files.filter (fun e => e.1 ≠ path)

/-- `os.unlink`. -/
def removeFile (files : List (String × List Nat)) (path : String) :
    List (String × List Nat) :=
  files.filter (fun e => e.1 ≠ path)

/-- `zipfile.extractall`: write every archive entry, in listed order. -/
def writeAll (files : List (String × List Nat)) :
    List (String × List Nat) → List (String × List Nat)
  | [] => files
  | (p, c) :: rest => writeAll (setFile files p c) rest

/-- `BASE` global of the script. -/
def BASE : String := "https://www.pnfsoftware.com/io/api"

/-- URL built by `check` (line 41 of the source). -/
def checkUrl (key h : String) : String :=
  BASE ++ "/file/check?apikey=" ++ key ++ "&h=" ++ h

/-- URL built by `download` (line 65 of the source); `hs` is the string the
`%s` placeholder is filled with. -/
def downloadUrl (key hs : String) : String :=
  BASE ++ "/file/download?apikey=" ++ key ++ "&h=" ++ hs

/-- Python `'%s' % h0` where `h0` is an optional string: `None` formats as
the literal string `"None"`. -/
def pyFormatOptStr : Option String → String
  | some s => s
  | none => "None"

/-- `getApikey` (lines 31–38): explicit parameter if truthy (non-empty), else
`os.environ['JEBIO_APIKEY']` whenever the variable is present (even empty),
else the `APIKEY` global if truthy, else raise. -/
def getApikey (cfg : Config) (apikey : String) : Except PyErr String :=
  if apikey ≠ "" then Except.ok apikey
  else
    match alistGet cfg.environ "JEBIO_APIKEY" with
    | some v => Except.ok v
    | none =>
      if cfg.APIKEY ≠ "" then Except.ok cfg.APIKEY
      else Except.error (.raiseStr "Your need a JEB.IO API key to execute this command.")

/-- `check` (lines 40–44): build the `file/check` URL, GET it, return the
parsed JSON body.  A connection failure or a non-JSON body raises; the HTTP
status is never inspected. -/
def check (cfg : Config) (h apikey : String) (w : World) : World × Except PyErr Json :=
  match getApikey cfg apikey with
  | Except.error e => (w, Except.error e)
  | Except.ok key =>
    let url := checkUrl key h
    let w1 : World := { w with reqs := w.reqs ++ [url] }
    match cfg.net url with
    | Except.error msg => (w1, Except.error (.connectionError msg))
    | Except.ok resp =>
      match resp.jsonBody with
      | some j => (w1, Except.ok j)
      | none => (w1, Except.error .jsonDecodeError)

/-- `h0 = r.get('sha256hash')` (line 55).  A JSON `null` field decodes to
Python `None`, indistinguishable from an absent key for the rest of the
function, so both map to `none`.  The service's contract types this field as
a string; any other shape is outside the embedding and maps to an error. -/
def h0OfResult (r : Json) : Except PyErr (Option String) :=
  match dictGet r "sha256hash" with
  | none => Except.ok none
  | some Json.null => Except.ok none
  | some (Json.str s) => Except.ok (some s)
  | some _ => Except.error (.typeError "sha256hash: unsupported value shape")

/-- Lines 56–63: `if h0 and os.path.isfile(h0)`, hash the local file's bytes
and compare hex digests case-insensitively; `true` means the function
short-circuits and returns `h0`. -/
def localHit (cfg : Config) (files : List (String × List Nat))
    (h0 : Option String) : Bool :=
  match h0 with
  | none => false
  | some s =>
    s ≠ "" &&
      match alistGet files s with
      | none => false
      | some content => asciiLower (cfg.sha256hex content) == asciiLower s

/-- `download` from line 55 on, after the check result has been accepted
(`code == 0`): local short-circuit, `file/download` GET (the URL is formatted
with `h0`, so an absent canonical hash puts the literal `"None"` in it), save
to `h0 + '.zip'` (a `TypeError` when `h0` is `None`), optional extraction with
the fixed password `infected`, where `extractall` runs before
`namelist()[0]` and the zip is unlinked afterwards. -/
def downloadAfterCheck (cfg : Config) (apikey : String) (extract : Bool)
    (h0 : Option String) (w : World) : World × Except PyErr (Option String) :=
  if localHit cfg w.files h0 then (w, Except.ok h0)
  else
    match getApikey cfg apikey with
    | Except.error e => (w, Except.error e)
    | Except.ok key =>
      let url := downloadUrl key (pyFormatOptStr h0)
      let w1 : World := { w with reqs := w.reqs ++ [url] }
      match cfg.net url with
      | Except.error msg => (w1, Except.error (.connectionError msg))
      | Except.ok resp =>
        if !resp.ok || resp.content.isEmpty then (w1, Except.ok none)
        else
          match h0 with
          | none =>
            (w1, Except.error (.typeError "unsupported operand types for +: NoneType and str"))
          | some s =>
            let outpath := s ++ ".zip"
            let w2 : World := { w1 with files := setFile w1.files outpath resp.content }
            if extract then
              match cfg.zip resp.content with
              | none => (w2, Except.error .badZipFile)
              | some entries =>
                let w3 : World := { w2 with
                  files := writeAll w2.files entries,
                  extractions := w2.extractions ++ [(outpath, "infected")] }
                match entries with
                | [] => (w3, Except.error .indexError)
                | (name, _) :: _ =>
                  let w4 : World := { w3 with files := removeFile w3.files outpath }
                  (w4, Except.ok (some name))
            else (w2, Except.ok (some outpath))

/-- `download` (lines 46–92): raise on an empty hash, run `check`, return
`None` on a falsy result (`not r` short-circuits before `r['code']`) or a
code other than 0, then continue with `downloadAfterCheck`. -/
def download (cfg : Config) (h apikey : String) (extract : Bool) (w : World) :
    World × Except PyErr (Option String) :=
  if h = "" then (w, Except.error (.raiseStr "A hash must be provided"))
  else
    match check cfg h apikey w with
    | (w1, Except.error e) => (w1, Except.error e)
    | (w1, Except.ok r) =>
      if pyFalsy r then (w1, Except.ok none)
      else
        match pySubscript r "code" with
        | Except.error e => (w1, Except.error e)
        | Except.ok c =>
          if !pyEqInt c 0 then (w1, Except.ok none)
          else
            match h0OfResult r with
            | Except.error e => (w1, Except.error e)
            | Except.ok h0 => downloadAfterCheck cfg apikey extract h0 w1

/-- The `-f` list-file handling of the CLI (lines 140–144): strip each line,
keep the non-blank ones not starting with `#`. -/
def listFileEntries (fileLines : List String) : List String :=
  fileLines.filterMap (fun line =>
    let t := pyStrip line
    if t ≠ "" && !startsWithHash t then some t else none)

/-- The CLI entry-list construction (lines 133–151): `-f` entries, then every
positional argument split on commas, de-duplicated (`list(set(hlist))` — the
Python order is unspecified, so any duplicate-free list with the same
membership is a faithful model). -/
def buildHlist (fileLines : List String) (args : List String) : List String :=
  (listFileEntries fileLines ++ args.flatMap (fun a => pySplitComma a)).dedup

/-! ### Concrete environments used to evaluate the operations on closed inputs -/

/-- Empty working directory, no requests issued yet. -/
def w0 : World := ⟨[], [], []⟩

/-- A service whose check result for hash `d4` is `{"code": 0}` — found, but
without a `sha256hash` field — and which answers any `file/download` request
for `h=None` with a successful, non-empty body. -/
def cfgNoH0 : Config where
  environ := []
  APIKEY := ""
  net := fun url =>
    if url = checkUrl "K" "d4" then
      Except.ok ⟨true, [1], some (Json.obj [("code", Json.num 0)])⟩
    else if url = downloadUrl "K" "None" then
      Except.ok ⟨true, [7], none⟩
    else Except.error "unreachable"
  sha256hex := fun _ => ""
  zip := fun _ => none

/-- A service whose check result for hash `d2` is `{"code": 1}` (not found). -/
def cfgNotFound : Config where
  environ := []
  APIKEY := ""
  net := fun url =>
    if url = checkUrl "K" "d2" then
      Except.ok ⟨true, [1], some (Json.obj [("code", Json.num 1)])⟩
    else Except.error "unreachable"
  sha256hex := fun _ => ""
  zip := fun _ => none

/-- A service whose check result for hash `d3` carries canonical hash `abcd`,
with a hash function giving the local bytes `[1, 2]` the digest `ABCD`
(matching `abcd` case-insensitively). -/
def cfgLocal : Config where
  environ := []
  APIKEY := ""
  net := fun url =>
    if url = checkUrl "K" "d3" then
      Except.ok ⟨true, [1],
        some (Json.obj [("code", Json.num 0), ("sha256hash", Json.str "abcd")])⟩
    else Except.error "unreachable"
  sha256hex := fun c => if c = [1, 2] then "ABCD" else ""
  zip := fun _ => none

/-- A working directory already holding a file `abcd` with content `[1, 2]`. -/
def wLocal : World := ⟨[("abcd", [1, 2])], [], []⟩

/-- A service whose check result for hash `d5` carries canonical hash `aa`,
serving a two-entry zip archive (bytes `[9, 9]`) for it. -/
def cfgExtract : Config where
  environ := []
  APIKEY := ""
  net := fun url =>
    if url = checkUrl "K" "d5" then
      Except.ok ⟨true, [1],
        some (Json.obj [("code", Json.num 0), ("sha256hash", Json.str "aa")])⟩
    else if url = downloadUrl "K" "aa" then
      Except.ok ⟨true, [9, 9], none⟩
    else Except.error "unreachable"
  sha256hex := fun _ => ""
  zip := fun c =>
    if c = [9, 9] then some [("mal.exe", [5]), ("readme.txt", [6])] else none

/-- A service answering the check request for `d6` with a NON-2xx response
(`ok = false`) whose body is nonetheless valid JSON (`7`). -/
def cfgNonOk : Config where
  environ := []
  APIKEY := ""
  net := fun url =>
    if url = checkUrl "K" "d6" then Except.ok ⟨false, [1], some (Json.num 7)⟩
    else Except.error "unreachable"
  sha256hex := fun _ => ""
  zip := fun _ => none

/-- A service whose check result for `d7` is a non-empty object with no
`code` field. -/
def cfgNoCode : Config where
  environ := []
  APIKEY := ""
  net := fun url =>
    if url = checkUrl "K" "d7" then
      Except.ok ⟨true, [1], some (Json.obj [("status", Json.num 1)])⟩
    else Except.error "unreachable"
  sha256hex := fun _ => ""
  zip := fun _ => none

/-- An environment where only the `JEBIO_APIKEY` variable supplies a key. -/
def cfgEnv : Config where
  environ := [("JEBIO_APIKEY", "envkey")]
  APIKEY := ""
  net := fun _ => Except.error "unreachable"
  sha256hex := fun _ => ""
  zip := fun _ => none

/-! ### Helper lemmas about the file-table operations -/

theorem alistGet_filter_ne {α : Type} (files : List (String × α)) (p q : String)
    (h : q ≠ p) :
    alistGet (files.filter fun e => e.1 ≠ p) q = alistGet files q := by
  induction files with
  | nil => rfl
  | cons e rest ih =>
    obtain ⟨k, v⟩ := e
    by_cases hk : k = p
    · subst hk
      simp only [List.filter_cons, decide_not, decide_eq_true_eq]
      simp only [alistGet, if_neg (Ne.symm h)]
      simpa using ih
    · simp only [List.filter_cons]
      by_cases hkq : k = q
      · subst hkq
        simp [alistGet, hk]
      · simp only [alistGet]
        rw [if_neg hkq]
        simpa [hk, alistGet, hkq] using ih

theorem alistGet_setFile_self (files : List (String × List Nat)) (p : String)
    (c : List Nat) : alistGet (setFile files p c) p = some c := by
  simp [setFile, alistGet]

theorem alistGet_setFile_ne (files : List (String × List Nat)) (p q : String)
    (c : List Nat) (h : q ≠ p) :
    alistGet (setFile files p c) q = alistGet files q := by
  unfold setFile
  simp only [alistGet]
  rw [if_neg (fun hpq : p = q => h hpq.symm)]
  exact alistGet_filter_ne files p q h

theorem alistGet_removeFile_self (files : List (String × List Nat)) (p : String) :
    alistGet (removeFile files p) p = none := by
  induction files with
  | nil => rfl
  | cons e rest ih =>
    obtain ⟨k, v⟩ := e
    by_cases hk : k = p
    · subst hk; simpa [removeFile] using ih
    · simpa [removeFile, alistGet, hk] using ih

theorem alistGet_removeFile_ne (files : List (String × List Nat)) (p q : String)
    (h : q ≠ p) : alistGet (removeFile files p) q = alistGet files q :=
  alistGet_filter_ne files p q h

theorem writeAll_isSome_of_isSome (es : List (String × List Nat))
    (files : List (String × List Nat)) (p : String)
    (h : (alistGet files p).isSome) :
    (alistGet (writeAll files es) p).isSome := by
  induction es generalizing files with
  | nil => exact h
  | cons e rest ih =>
    obtain ⟨q, c⟩ := e
    simp only [writeAll]
    apply ih
    by_cases hq : p = q
    · subst hq; rw [alistGet_setFile_self]; rfl
    · rw [alistGet_setFile_ne _ _ _ _ hq]; exact h

theorem writeAll_isSome_of_mem (es : List (String × List Nat))
    (files : List (String × List Nat)) (p : String) (c : List Nat)
    (h : (p, c) ∈ es) :
    (alistGet (writeAll files es) p).isSome := by
  induction es generalizing files with
  | nil => cases h
  | cons e rest ih =>
    rcases List.mem_cons.mp h with he | he
    · subst he
      simp only [writeAll]
      apply writeAll_isSome_of_isSome
      rw [alistGet_setFile_self]; rfl
    · obtain ⟨q, c'⟩ := e
      simp only [writeAll]
      exact ih _ he

/-- `check` with a resolvable key: one request to the check URL is logged, the
files are untouched, and the outcome is determined by the oracle's answer. -/
theorem check_eq (cfg : Config) (h apikey key : String) (w : World)
    (hkey : getApikey cfg apikey = Except.ok key) :
    check cfg h apikey w =
      ({ w with reqs := w.reqs ++ [checkUrl key h] },
        match cfg.net (checkUrl key h) with
        | Except.error msg => Except.error (PyErr.connectionError msg)
        | Except.ok resp =>
          match resp.jsonBody with
          | some j => Except.ok j
          | none => Except.error PyErr.jsonDecodeError) := by
  unfold check
  rw [hkey]
  dsimp only
  cases cfg.net (checkUrl key h) with
  | error msg => rfl
  | ok resp =>
    dsimp only
    cases resp.jsonBody with
    | some j => rfl
    | none => rfl

/-- Membership characterisation of the `-f` list-file filtering. -/
theorem mem_listFileEntries (fileLines : List String) (x : String) :
    x ∈ listFileEntries fileLines ↔
      ∃ l ∈ fileLines, pyStrip l = x ∧ x ≠ "" ∧ startsWithHash x = false := by
  simp only [listFileEntries, List.mem_filterMap]
  constructor
  · rintro ⟨l, hl, hf⟩
    refine ⟨l, hl, ?_⟩
    by_cases hc : (pyStrip l ≠ "" && !startsWithHash (pyStrip l)) = true
    · rw [if_pos hc] at hf
      obtain rfl : pyStrip l = x := Option.some.inj hf
      simp only [Bool.and_eq_true, decide_eq_true_eq, Bool.not_eq_true',
        ne_eq] at hc
      exact ⟨rfl, hc.1, hc.2⟩
    · rw [if_neg hc] at hf
      cases hf
  · rintro ⟨l, hl, hx, hne, hsw⟩
    refine ⟨l, hl, ?_⟩
    rw [if_pos]
    · rw [hx]
    · rw [hx]
      simp [hne, hsw]

/-! ### Claim theorems -/

/-- Unfolding lemma: when the check phase of `download` succeeds with a
truthy result whose `code` equals 0 and an acceptable `sha256hash` shape,
`download` continues as `downloadAfterCheck` in the post-check world. -/
theorem download_to_afterCheck (cfg : Config) (h apikey key : String)
    (extract : Bool) (w : World) (resp : HttpResp) (r c : Json)
    (h0 : Option String)
    (hh : h ≠ "")
    (hkey : getApikey cfg apikey = Except.ok key)
    (hnet : cfg.net (checkUrl key h) = Except.ok resp)
    (hjson : resp.jsonBody = some r)
    (hfalsy : pyFalsy r = false)
    (hcode : pySubscript r "code" = Except.ok c)
    (hc0 : pyEqInt c 0 = true)
    (hh0 : h0OfResult r = Except.ok h0) :
    download cfg h apikey extract w =
      downloadAfterCheck cfg apikey extract h0
        { w with reqs := w.reqs ++ [checkUrl key h] } := by
  simp only [download, hh, check_eq cfg h apikey key w hkey, hnet, hjson,
    hfalsy, hcode, hc0, hh0, if_false, Bool.not_true, Bool.false_eq_true,
    if_neg, ite_false, reduceIte]

/-- C8: calling `download` with an empty (falsy) hash raises immediately —
for every configuration (so before any credential resolution could happen)
the world is returned untouched (no request logged) with the raised error,
never the `None` not-found sentinel. -/
theorem download_empty_hash_raises (cfg : Config) (apikey : String)
    (extract : Bool) (w : World) :
    download cfg "" apikey extract w =
      (w, Except.error (PyErr.raiseStr "A hash must be provided")) := by
  simp [download]

/-- C5: credential resolution returns the explicit value when non-empty, else
the environment value whenever the `JEBIO_APIKEY` variable is present, else
the configured `APIKEY` constant when non-empty, and otherwise fails with the
missing-credential error instead of returning an empty string. -/
theorem getApikey_resolution (cfg : Config) (k : String) :
    (k ≠ "" → getApikey cfg k = Except.ok k)
    ∧ (k = "" → ∀ v, alistGet cfg.environ "JEBIO_APIKEY" = some v →
        getApikey cfg k = Except.ok v)
    ∧ (k = "" → alistGet cfg.environ "JEBIO_APIKEY" = none → cfg.APIKEY ≠ "" →
        getApikey cfg k = Except.ok cfg.APIKEY)
    ∧ (k = "" → alistGet cfg.environ "JEBIO_APIKEY" = none → cfg.APIKEY = "" →
        getApikey cfg k =
          Except.error
            (PyErr.raiseStr "Your need a JEB.IO API key to execute this command.")) := by
  refine ⟨?_, ?_, ?_, ?_⟩
  · intro hk
    simp [getApikey, hk]
  · intro hk v hv
    subst hk
    simp [getApikey, hv]
  · intro hk hv ha
    subst hk
    simp [getApikey, hv, ha]
  · intro hk hv ha
    subst hk
    simp [getApikey, hv, ha]

/-- Witness for C5: with only the environment variable set, resolution picks
the environment value. -/
theorem getApikey_resolution_witness : getApikey cfgEnv "" = Except.ok "envkey" :=
  (getApikey_resolution cfgEnv "").2.1 rfl "envkey" rfl

/-- C6 counterexample: a NON-2xx response (`ok = false`) whose body is valid
JSON is NOT surfaced as an error — `check` returns the parsed body as a
value, because the code never inspects the HTTP status. -/
theorem check_non2xx_json_returned_as_value :
    cfgNonOk.net (checkUrl "K" "d6") = Except.ok ⟨false, [1], some (Json.num 7)⟩
    ∧ check cfgNonOk "d6" "K" w0 =
        ({ w0 with reqs := [checkUrl "K" "d6"] }, Except.ok (Json.num 7)) :=
  ⟨rfl, rfl⟩

/-- C6 (amended): `check` issues exactly one GET to the `file/check` URL built
from the key and hash (no retry), leaves the files untouched, returns the
parsed JSON body verbatim, and surfaces connection failures and non-JSON
bodies as errors; the HTTP status itself is never inspected (a non-2xx
response with a JSON body is returned as a value). -/
theorem check_request_and_errors (cfg : Config) (h apikey key : String)
    (w : World) (hkey : getApikey cfg apikey = Except.ok key) :
    (check cfg h apikey w).1.reqs = w.reqs ++ [checkUrl key h]
    ∧ (check cfg h apikey w).1.files = w.files
    ∧ (∀ resp j, cfg.net (checkUrl key h) = Except.ok resp →
        resp.jsonBody = some j → (check cfg h apikey w).2 = Except.ok j)
    ∧ (∀ msg, cfg.net (checkUrl key h) = Except.error msg →
        (check cfg h apikey w).2 = Except.error (PyErr.connectionError msg))
    ∧ (∀ resp, cfg.net (checkUrl key h) = Except.ok resp →
        resp.jsonBody = none →
        (check cfg h apikey w).2 = Except.error PyErr.jsonDecodeError) := by
  rw [check_eq cfg h apikey key w hkey]
  refine ⟨rfl, rfl, ?_, ?_, ?_⟩
  · intro resp j hnet hjson
    rw [hnet]
    dsimp only
    rw [hjson]
  · intro msg hnet
    rw [hnet]
  · intro resp hnet hjson
    rw [hnet]
    dsimp only
    rw [hjson]

/-- Witness for C6 (amended): the non-2xx JSON response of `cfgNonOk` is
returned verbatim, and exactly one request was issued. -/
theorem check_request_and_errors_witness :
    (check cfgNonOk "d6" "K" w0).2 = Except.ok (Json.num 7)
    ∧ (check cfgNonOk "d6" "K" w0).1.reqs = [checkUrl "K" "d6"] :=
  ⟨(check_request_and_errors cfgNonOk "d6" "K" "K" w0 rfl).2.2.1
      ⟨false, [1], some (Json.num 7)⟩ (Json.num 7) rfl rfl,
    (check_request_and_errors cfgNonOk "d6" "K" "K" w0 rfl).1⟩

/-- C7: the CLI's processed entry list is exactly the stripped, non-blank,
non-`#` lines of the `-f` file merged with the comma-split positional
arguments, de-duplicated (order not guaranteed, so membership and
duplicate-freeness are characterised); concretely, a list file with a `#`
comment, a blank line, and `abc123` yields exactly the entry `abc123`. -/
theorem cli_entry_list_spec :
    (∀ (fileLines args : List String) (x : String),
        (x ∈ buildHlist fileLines args ↔
          (∃ l ∈ fileLines, pyStrip l = x ∧ x ≠ "" ∧ startsWithHash x = false)
          ∨ (∃ a ∈ args, x ∈ pySplitComma a))
        ∧ (buildHlist fileLines args).Nodup)
    ∧ buildHlist ["# comment", "", "abc123"] [] = ["abc123"] := by
  refine ⟨fun fileLines args x => ⟨?_, List.nodup_dedup _⟩, by decide⟩
  rw [buildHlist, List.mem_dedup, List.mem_append, mem_listFileEntries]
  simp only [List.mem_flatMap]

/-- C2: when the check result is absent (falsy) or carries a `code` other
than 0, `download` returns the not-found sentinel `None` (not an error) and
issues no request beyond the single check request; the files are untouched. -/
theorem download_notfound_sentinel (cfg : Config) (h apikey key : String)
    (extract : Bool) (w : World) (resp : HttpResp) (r : Json)
    (hh : h ≠ "")
    (hkey : getApikey cfg apikey = Except.ok key)
    (hnet : cfg.net (checkUrl key h) = Except.ok resp)
    (hjson : resp.jsonBody = some r)
    (hr : pyFalsy r = true
      ∨ ∃ c, pySubscript r "code" = Except.ok c ∧ pyEqInt c 0 = false) :
    download cfg h apikey extract w =
      ({ w with reqs := w.reqs ++ [checkUrl key h] }, Except.ok none) := by
  simp only [download, hh, check_eq cfg h apikey key w hkey, hnet, hjson,
    if_false, ite_false, reduceIte]
  rcases hr with hf | ⟨c, hc, hc0⟩
  · rw [if_pos hf]
  · cases hfb : pyFalsy r with
    | true => rw [if_pos rfl]
    | false =>
      rw [if_neg Bool.false_ne_true, hc]
      dsimp only
      rw [if_pos (by rw [hc0]; rfl)]

/-- Witness for C2: against a service answering `{"code": 1}`, `download`
returns `None` with exactly the one check request logged. -/
theorem download_notfound_sentinel_witness :
    download cfgNotFound "d2" "K" false w0 =
      ({ w0 with reqs := [checkUrl "K" "d2"] }, Except.ok none) :=
  download_notfound_sentinel cfgNotFound "d2" "K" "K" false w0
    ⟨true, [1], some (Json.obj [("code", Json.num 1)])⟩
    (Json.obj [("code", Json.num 1)])
    (by decide) rfl rfl rfl
    (Or.inr ⟨Json.num 1, rfl, rfl⟩)

/-- C3: when the check result carries canonical hash `h0` naming an existing
local file whose content hash matches `h0` case-insensitively, `download`
returns the path `h0` with no `file/download` request (only the check request
is logged) and the file table unchanged. -/
theorem download_local_hit (cfg : Config) (h apikey key s : String)
    (extract : Bool) (w : World) (resp : HttpResp) (r c : Json)
    (content : List Nat)
    (hh : h ≠ "")
    (hkey : getApikey cfg apikey = Except.ok key)
    (hnet : cfg.net (checkUrl key h) = Except.ok resp)
    (hjson : resp.jsonBody = some r)
    (hfalsy : pyFalsy r = false)
    (hcode : pySubscript r "code" = Except.ok c)
    (hc0 : pyEqInt c 0 = true)
    (hh0 : h0OfResult r = Except.ok (some s))
    (hs : s ≠ "")
    (hfile : alistGet w.files s = some content)
    (hhash : asciiLower (cfg.sha256hex content) = asciiLower s) :
    download cfg h apikey extract w =
      ({ w with reqs := w.reqs ++ [checkUrl key h] }, Except.ok (some s)) := by
  rw [download_to_afterCheck cfg h apikey key extract w resp r c (some s)
    hh hkey hnet hjson hfalsy hcode hc0 hh0]
  unfold downloadAfterCheck
  rw [if_pos]
  show (localHit cfg w.files (some s)) = true
  unfold localHit
  dsimp only
  rw [hfile]
  simp [hs, hhash]

/-- Witness for C3: the canonical file `abcd` is already present with
matching digest, so `download` returns `abcd` after only the check request. -/
theorem download_local_hit_witness :
    download cfgLocal "d3" "K" false wLocal =
      ({ wLocal with reqs := [checkUrl "K" "d3"] }, Except.ok (some "abcd")) :=
  download_local_hit cfgLocal "d3" "K" "K" "abcd" false wLocal
    ⟨true, [1],
      some (Json.obj [("code", Json.num 0), ("sha256hash", Json.str "abcd")])⟩
    (Json.obj [("code", Json.num 0), ("sha256hash", Json.str "abcd")])
    (Json.num 0) [1, 2]
    (by decide) rfl rfl rfl rfl rfl rfl rfl (by decide) rfl (by decide)

/-- C9: a non-empty check result without a `code` field makes `download`
raise a `KeyError` (the `r['code']` lookup), not report not-found. -/
theorem download_missing_code_raises (cfg : Config) (h apikey key : String)
    (extract : Bool) (w : World) (resp : HttpResp)
    (fields : List (String × Json))
    (hh : h ≠ "")
    (hkey : getApikey cfg apikey = Except.ok key)
    (hnet : cfg.net (checkUrl key h) = Except.ok resp)
    (hjson : resp.jsonBody = some (Json.obj fields))
    (hne : fields ≠ [])
    (hnc : lookupField fields "code" = none) :
    download cfg h apikey extract w =
      ({ w with reqs := w.reqs ++ [checkUrl key h] },
        Except.error (PyErr.keyError "code")) := by
  simp only [download, hh, check_eq cfg h apikey key w hkey, hnet, hjson,
    if_false, ite_false, reduceIte]
  rw [if_neg]
  · unfold pySubscript
    dsimp only
    rw [hnc]
  · show ¬pyFalsy (Json.obj fields) = true
    simp [pyFalsy, hne]

/-- Witness for C9: the result `{"status": 1}` has no `code` key, so
`download` raises `KeyError` after the check request. -/
theorem download_missing_code_raises_witness :
    download cfgNoCode "d7" "K" false w0 =
      ({ w0 with reqs := [checkUrl "K" "d7"] },
        Except.error (PyErr.keyError "code")) :=
  download_missing_code_raises cfgNoCode "d7" "K" "K" false w0
    ⟨true, [1], some (Json.obj [("status", Json.num 1)])⟩
    [("status", Json.num 1)]
    (by decide) rfl rfl rfl (List.cons_ne_nil _ _) rfl

/-- C1: against a service whose check result is found (`code == 0`) but lacks
`sha256hash`, `download` does NOT fall back to the originally supplied hash:
the `file/download` GET carries the literal string `None` (Python's `'%s'`
formatting of `h0 = None`), and on the successful response the save step
`h0 + '.zip'` raises a `TypeError` instead of persisting anything. -/
theorem download_missing_sha256hash_sends_None_and_raises :
    download cfgNoH0 "d4" "K" false w0 =
      (⟨[],
        ["https://www.pnfsoftware.com/io/api/file/check?apikey=K&h=d4",
         "https://www.pnfsoftware.com/io/api/file/download?apikey=K&h=None"],
        []⟩,
       Except.error
         (PyErr.typeError "unsupported operand types for +: NoneType and str")) :=
  rfl

/-- Unfolding lemma for the fully successful extraction path of
`downloadAfterCheck`: no local hit, successful non-empty response, valid
non-empty archive. -/
theorem downloadAfterCheck_extract_success (cfg : Config) (apikey key s : String)
    (w : World) (resp2 : HttpResp) (n0 : String) (c0 : List Nat)
    (rest : List (String × List Nat))
    (hkey : getApikey cfg apikey = Except.ok key)
    (hnolocal : localHit cfg w.files (some s) = false)
    (hnet2 : cfg.net (downloadUrl key s) = Except.ok resp2)
    (hok2 : resp2.ok = true)
    (hcon2 : resp2.content.isEmpty = false)
    (hzip : cfg.zip resp2.content = some ((n0, c0) :: rest)) :
    downloadAfterCheck cfg apikey true (some s) w =
      ({ files := removeFile
            (writeAll (setFile w.files (s ++ ".zip") resp2.content)
              ((n0, c0) :: rest)) (s ++ ".zip"),
          reqs := w.reqs ++ [downloadUrl key s],
          extractions := w.extractions ++ [(s ++ ".zip", "infected")] },
        Except.ok (some n0)) := by
  simp only [downloadAfterCheck, pyFormatOptStr, hnolocal, hkey, hnet2, hok2,
    hcon2, hzip, Bool.not_true, Bool.false_or, if_false, ite_false, reduceIte,
    Bool.false_eq_true]

/-- C4: a successful `download` with extraction requested opens the saved
archive with the fixed password `infected` (logged extraction), leaves the
first listed entry present in the working directory, deletes the zip archive,
and returns the first entry's path. -/
theorem download_extract_success (cfg : Config) (h apikey key s : String)
    (w : World) (resp resp2 : HttpResp) (r c : Json)
    (n0 : String) (c0 : List Nat) (rest : List (String × List Nat))
    (hh : h ≠ "")
    (hkey : getApikey cfg apikey = Except.ok key)
    (hnet : cfg.net (checkUrl key h) = Except.ok resp)
    (hjson : resp.jsonBody = some r)
    (hfalsy : pyFalsy r = false)
    (hcode : pySubscript r "code" = Except.ok c)
    (hc0 : pyEqInt c 0 = true)
    (hh0 : h0OfResult r = Except.ok (some s))
    (hnolocal : localHit cfg w.files (some s) = false)
    (hnet2 : cfg.net (downloadUrl key s) = Except.ok resp2)
    (hok2 : resp2.ok = true)
    (hcon2 : resp2.content.isEmpty = false)
    (hzip : cfg.zip resp2.content = some ((n0, c0) :: rest))
    (hn0 : n0 ≠ s ++ ".zip") :
    (download cfg h apikey true w).2 = Except.ok (some n0)
    ∧ (download cfg h apikey true w).1.extractions =
        w.extractions ++ [(s ++ ".zip", "infected")]
    ∧ alistGet (download cfg h apikey true w).1.files (s ++ ".zip") = none
    ∧ (alistGet (download cfg h apikey true w).1.files n0).isSome = true := by
  have hd := download_to_afterCheck cfg h apikey key true w resp r c (some s)
    hh hkey hnet hjson hfalsy hcode hc0 hh0
  rw [downloadAfterCheck_extract_success cfg apikey key s
    { w with reqs := w.reqs ++ [checkUrl key h] } resp2 n0 c0 rest
    hkey hnolocal hnet2 hok2 hcon2 hzip] at hd
  rw [hd]
  refine ⟨rfl, rfl, ?_, ?_⟩
  · exact alistGet_removeFile_self _ _
  · rw [alistGet_removeFile_ne _ _ _ hn0]
    exact writeAll_isSome_of_mem _ _ n0 c0 (List.mem_cons_self _ _)

/-- Witness for C4: downloading `d5` with extraction yields the first archive
entry `mal.exe`, logs the extraction with password `infected`, and the
intermediate `aa.zip` no longer exists. -/
theorem download_extract_success_witness :
    (download cfgExtract "d5" "K" true w0).2 = Except.ok (some "mal.exe")
    ∧ (download cfgExtract "d5" "K" true w0).1.extractions =
        [("aa.zip", "infected")]
    ∧ alistGet (download cfgExtract "d5" "K" true w0).1.files "aa.zip" = none :=
  ⟨(download_extract_success cfgExtract "d5" "K" "K" "aa" w0
      ⟨true, [1],
        some (Json.obj [("code", Json.num 0), ("sha256hash", Json.str "aa")])⟩
      ⟨true, [9, 9], none⟩
      (Json.obj [("code", Json.num 0), ("sha256hash", Json.str "aa")])
      (Json.num 0) "mal.exe" [5] [("readme.txt", [6])]
      (by decide) rfl rfl rfl rfl rfl rfl rfl rfl rfl rfl rfl rfl
      (by decide)).1,
   (download_extract_success cfgExtract "d5" "K" "K" "aa" w0
      ⟨true, [1],
        some (Json.obj [("code", Json.num 0), ("sha256hash", Json.str "aa")])⟩
      ⟨true, [9, 9], none⟩
      (Json.obj [("code", Json.num 0), ("sha256hash", Json.str "aa")])
      (Json.num 0) "mal.exe" [5] [("readme.txt", [6])]
      (by decide) rfl rfl rfl rfl rfl rfl rfl rfl rfl rfl rfl rfl
      (by decide)).2.1,
   (download_extract_success cfgExtract "d5" "K" "K" "aa" w0
      ⟨true, [1],
        some (Json.obj [("code", Json.num 0), ("sha256hash", Json.str "aa")])⟩
      ⟨true, [9, 9], none⟩
      (Json.obj [("code", Json.num 0), ("sha256hash", Json.str "aa")])
      (Json.num 0) "mal.exe" [5] [("readme.txt", [6])]
      (by decide) rfl rfl rfl rfl rfl rfl rfl rfl rfl rfl rfl rfl
      (by decide)).2.2.1⟩

/-- C10: with extraction requested, EVERY member of the archive is written to
the working directory (the code calls `extractall`), not only the first
listed entry, although only the first entry's path is returned. -/
theorem download_extractall_writes_every_entry (cfg : Config)
    (h apikey key s : String) (w : World) (resp resp2 : HttpResp) (r c : Json)
    (n0 : String) (c0 : List Nat) (rest : List (String × List Nat))
    (hh : h ≠ "")
    (hkey : getApikey cfg apikey = Except.ok key)
    (hnet : cfg.net (checkUrl key h) = Except.ok resp)
    (hjson : resp.jsonBody = some r)
    (hfalsy : pyFalsy r = false)
    (hcode : pySubscript r "code" = Except.ok c)
    (hc0 : pyEqInt c 0 = true)
    (hh0 : h0OfResult r = Except.ok (some s))
    (hnolocal : localHit cfg w.files (some s) = false)
    (hnet2 : cfg.net (downloadUrl key s) = Except.ok resp2)
    (hok2 : resp2.ok = true)
    (hcon2 : resp2.content.isEmpty = false)
    (hzip : cfg.zip resp2.content = some ((n0, c0) :: rest)) :
    (download cfg h apikey true w).2 = Except.ok (some n0)
    ∧ ∀ p cc, (p, cc) ∈ (n0, c0) :: rest → p ≠ s ++ ".zip" →
        (alistGet (download cfg h apikey true w).1.files p).isSome = true := by
  have hd := download_to_afterCheck cfg h apikey key true w resp r c (some s)
    hh hkey hnet hjson hfalsy hcode hc0 hh0
  rw [downloadAfterCheck_extract_success cfg apikey key s
    { w with reqs := w.reqs ++ [checkUrl key h] } resp2 n0 c0 rest
    hkey hnolocal hnet2 hok2 hcon2 hzip] at hd
  rw [hd]
  refine ⟨rfl, ?_⟩
  intro p cc hmem hne
  rw [alistGet_removeFile_ne _ _ _ hne]
  exact writeAll_isSome_of_mem _ _ p cc hmem

/-- Witness for C10: the SECOND archive entry `readme.txt` is also present
after extraction, even though only `mal.exe` is returned. -/
theorem download_extractall_writes_every_entry_witness :
    (alistGet (download cfgExtract "d5" "K" true w0).1.files
      "readme.txt").isSome = true :=
  (download_extractall_writes_every_entry cfgExtract "d5" "K" "K" "aa" w0
      ⟨true, [1],
        some (Json.obj [("code", Json.num 0), ("sha256hash", Json.str "aa")])⟩
      ⟨true, [9, 9], none⟩
      (Json.obj [("code", Json.num 0), ("sha256hash", Json.str "aa")])
      (Json.num 0) "mal.exe" [5] [("readme.txt", [6])]
      (by decide) rfl rfl rfl rfl rfl rfl rfl rfl rfl rfl rfl rfl).2
    "readme.txt" [6] (by decide) (by decide)

end Jebio
